import Mathlib

/-!
Verification of the configuration reconciliation core of the Glean custom
datasource manager (`manage.py`), shallowly embedded in Lean.

Python strings are modelled as Lean `String`s operated on through their
character lists; file contents (Python `bytes`) are lists of naturals below
256; the filesystem and the HTTP collaborator are explicit maps supplied to
the functions that the source reads them from.  Optional textual settings
follow Python truthiness: the empty string means "not set".
-/

namespace GleanDS

/-! ### Bytes, characters and string utilities -/

/-- A Python `bytes` value: a list of byte values (naturals below 256). -/
abbrev Bytes := List Nat

/-- A filesystem: maps a path to the file's bytes when the file exists. -/
abbrev FS := String → Option Bytes

/-- The HTTP collaborator: maps a URL to `(content-type header, body)` for a
successful 2xx fetch, `none` for any fetch failure. -/
abbrev Http := String → Option (String × Bytes)

/-- Whitespace characters, as Python `str.strip` / regex `\s` treat ASCII. -/
def isWsChar (c : Char) : Bool :=
  c == ' ' || c == '\t' || c == '\n' || c == '\r' || c == '\x0b' || c == '\x0c'

/-- A character of the regex class `[a-zA-Z]`. -/
def isAsciiAlpha (c : Char) : Bool :=
  (65 ≤ c.toNat && c.toNat ≤ 90) || (97 ≤ c.toNat && c.toNat ≤ 122)

/-- A character of the regex class `[0-9]`. -/
def isAsciiDigit (c : Char) : Bool := 48 ≤ c.toNat && c.toNat ≤ 57

/-- A character of the regex class `[a-z0-9-]` (datasource id slugs). -/
def isSlugChar (c : Char) : Bool :=
  (97 ≤ c.toNat && c.toNat ≤ 122) || isAsciiDigit c || c == '-'

/-- ASCII lowercasing of one character (Python `str.lower` on ASCII input). -/
def asciiLower (c : Char) : Char :=
  if 65 ≤ c.toNat ∧ c.toNat ≤ 90 then Char.ofNat (c.toNat + 32) else c

/-- ASCII lowercasing of a string (Python `str.lower` on ASCII input). -/
def strLower (s : String) : String := ⟨s.toList.map asciiLower⟩

/-- Does the second list start with the first one? -/
def leadsWith : List Char → List Char → Bool
  | [], _ => true
  | _ :: _, [] => false
  | a :: as, b :: bs => a == b && leadsWith as bs

/-- Python `s.startswith(pat)`. -/
def strStarts (pat s : String) : Bool := leadsWith pat.toList s.toList

/-- Python `s.endswith(pat)`. -/
def strEnds (pat s : String) : Bool := leadsWith pat.toList.reverse s.toList.reverse

/-- Python `pat in s` (substring containment). -/
def containsSeq (needle : List Char) : List Char → Bool
  | [] => needle.isEmpty
  | c :: rest => leadsWith needle (c :: rest) || containsSeq needle rest

/-- Python `pat in s` on strings. -/
def strContains (needle s : String) : Bool := containsSeq needle.toList s.toList

/-- Strip the given pattern from the head of a list, failing when it is not
there (used to consume literal parts of an anchored regex). -/
def dropLeads : List Char → List Char → Option (List Char)
  | [], l => some l
  | _ :: _, [] => none
  | a :: as, b :: bs => if a == b then dropLeads as bs else none

/-- Remove the trailing run of characters satisfying `p`. -/
def dropTrail (p : Char → Bool) : List Char → List Char
  | [] => []
  | c :: rest =>
    let r := dropTrail p rest
    if r.isEmpty && p c then [] else c :: r

/-- Python `s.strip()`. -/
def pyStrip (s : String) : String :=
  ⟨dropTrail isWsChar (s.toList.dropWhile isWsChar)⟩

/-- Python `s.rstrip('/')`. -/
def pyRstripSlash (s : String) : String := ⟨dropTrail (· == '/') s.toList⟩

/-! ### Base64 (Python `base64.b64encode` / `base64.b64decode`) -/

/-- The base64 alphabet. -/
def b64Chars : List Char :=
  "ABCDEFGHIJKLMNOPQRSTUVWXYZabcdefghijklmnopqrstuvwxyz0123456789+/".toList

/-- Character of a six-bit group. -/
def b64tbl (n : Nat) : Char := b64Chars.getD n 'A'

/-- Index scan for the inverse table. -/
def b64invAux (c : Char) : List Char → Nat → Option Nat
  | [], _ => none
  | d :: rest, i => if d == c then some i else b64invAux c rest (i + 1)

/-- Six-bit value of a base64 character. -/
def b64inv (c : Char) : Option Nat := b64invAux c b64Chars 0

/-- Base64-encode a byte list (standard encoding with `=` padding, as
`base64.b64encode` produces). -/
def b64EncodeChars : Bytes → List Char
  | [] => []
  | [a] => [b64tbl (a / 4), b64tbl (a % 4 * 16), '=', '=']
  | [a, b] => [b64tbl (a / 4), b64tbl (a % 4 * 16 + b / 16), b64tbl (b % 16 * 4), '=']
  | a :: b :: c :: rest =>
    b64tbl (a / 4) :: b64tbl (a % 4 * 16 + b / 16) :: b64tbl (b % 16 * 4 + c / 64) ::
      b64tbl (c % 64) :: b64EncodeChars rest

/-- Base64-encode into a string. -/
def b64EncodeStr (b : Bytes) : String := ⟨b64EncodeChars b⟩

/-- Base64-decode a character list (`base64.b64decode` on canonical input). -/
def b64DecodeChars : List Char → Option Bytes
  | [] => some []
  | w :: x :: y :: z :: rest =>
    match b64inv w, b64inv x with
    | some a, some b =>
      if y == '=' && z == '=' && rest.isEmpty then
        some [a * 4 + b / 16]
      else if z == '=' && rest.isEmpty then
        match b64inv y with
        | some c => some [a * 4 + b / 16, b % 16 * 16 + c / 4]
        | none => none
      else
        match b64inv y, b64inv z, b64DecodeChars rest with
        | some c, some d, some bs =>
          some ((a * 4 + b / 16) :: (b % 16 * 16 + c / 4) :: (c % 4 * 64 + d) :: bs)
        | _, _, _ => none
    | _, _ => none
  | _ => none

/-- Base64-decode a string. -/
def b64DecodeStr (s : String) : Option Bytes := b64DecodeChars s.toList

/-! ### Data URLs and icon handling (manage.py lines 84–157) -/

/-- Build a `data:<mime>;base64,<payload>` data URL. -/
def mkDataUrl (mime payload : String) : String :=
  "data:" ++ mime ++ ";base64," ++ payload

/-- The `mime_types` table of `get_icon_as_data_url`: file suffix to MIME. -/
def mime_types (suffixStr : String) : Option String :=
  if suffixStr = ".png" then some "image/png"
  else if suffixStr = ".svg" then some "image/svg+xml"
  else none

/-- The `extension_map` of `save_data_url_to_file`: MIME to file extension. -/
def extension_map (mime : String) : Option String :=
  if mime = "image/png" then some "png"
  else if mime = "image/svg+xml" then some "svg"
  else none

/-- Python `Path(p).suffix`: the extension (with dot) of the final path
component; empty when there is no dot, or the dot is leading (hidden file) or
trailing. -/
def pathSuffix (p : String) : String :=
  let name := (p.toList.reverse.takeWhile (· != '/')).reverse
  let revExt := name.reverse.takeWhile (· != '.')
  if revExt.length < name.length ∧ 1 ≤ name.length - revExt.length - 1 ∧ revExt ≠ []
  then ⟨'.' :: revExt.reverse⟩
  else ""

/-- `get_icon_as_data_url(file_path)`: convert an image file to a base64 data
URL.  Rejects suffixes other than `.png`/`.svg` before reading the file; a
missing file is an (uncaught `OSError`) failure. -/
def get_icon_as_data_url (fs : FS) (file_path : String) : Except String String :=
  let suffixStr := strLower (pathSuffix file_path)
  match mime_types suffixStr with
  | none => .error ("Unsupported image format: " ++ suffixStr)
  | some mime =>
    match fs file_path with
    | none => .error ("No such file or directory: " ++ file_path)
    | some content => .ok (mkDataUrl mime (b64EncodeStr content))

/-- `download_icon(url)`: fetch an icon over HTTP and convert it to a data
URL.  The MIME type comes from the `content-type` header when it mentions
`svg` or `png`, otherwise it is guessed from the URL suffix, defaulting to
`image/png`; any fetch failure is wrapped as a `ValueError`. -/
def download_icon (http : Http) (url : String) : Except String String :=
  match http url with
  | none => .error ("Failed to download icon from " ++ url)
  | some (contentType, body) =>
    let ctLower := strLower contentType
    let mime :=
      if strContains "svg" ctLower then "image/svg+xml"
      else if strContains "png" ctLower then "image/png"
      else if strEnds ".svg" (strLower url) then "image/svg+xml"
      else "image/png"
    .ok (mkDataUrl mime (b64EncodeStr body))

/-- The regex `data:([^;]+);base64,(.+)` applied with `re.match`: returns the
MIME group and the base64 group (`.+` stops at a newline and must be
nonempty). -/
def parseDataUrl (s : String) : Option (String × String) :=
  match dropLeads "data:".toList s.toList with
  | none => none
  | some rest =>
    let mime := rest.takeWhile (· != ';')
    if mime.isEmpty then none
    else
      match dropLeads ";base64,".toList (rest.dropWhile (· != ';')) with
      | none => none
      | some rest2 =>
        let content := rest2.takeWhile (· != '\n')
        if content.isEmpty then none else some (⟨mime⟩, ⟨content⟩)

/-- `save_data_url_to_file(data_url, file_path)`: decode a data URL; on
success return the extension chosen from the MIME type together with the
bytes written to `file_path.with_suffix('.' + ext)`. -/
def save_data_url_to_file (data_url : String) : Except String (String × Bytes) :=
  if strStarts "data:" data_url = false then .error "Invalid data URL"
  else
    match parseDataUrl data_url with
    | none => .error "Invalid data URL format"
    | some (mime, base64_content) =>
      match extension_map mime with
      | none => .error ("Unsupported MIME type: " ++ mime)
      | some ext =>
        match b64DecodeStr base64_content with
        | none => .error "binascii.Error: invalid base64"
        | some content => .ok (ext, content)

/-! ### `normalize_datasource_id` (manage.py lines 72–81) -/

/-- Characters surviving `re.sub(r"[^a-zA-Z0-9\s-]", "", ...)`. -/
def keepChar (c : Char) : Bool := isAsciiAlpha c || isAsciiDigit c || isWsChar c || c == '-'

/-- `re.sub(r"\s+", "-", ...)`: replace each maximal whitespace run by `-`. -/
def squashWs : List Char → List Char
  | [] => []
  | [c] => if isWsChar c then ['-'] else [c]
  | a :: b :: rest =>
    if isWsChar a && isWsChar b then squashWs (b :: rest)
    else (if isWsChar a then '-' else a) :: squashWs (b :: rest)

/-- `re.sub(r"-+", "-", ...)`: collapse hyphen runs to a single hyphen. -/
def squashHyphens : List Char → List Char
  | [] => []
  | [c] => [c]
  | a :: b :: rest =>
    if a == '-' && b == '-' then squashHyphens (b :: rest)
    else a :: squashHyphens (b :: rest)

/-- `normalize_datasource_id(display_name)`: filter allowed characters,
replace whitespace runs by hyphens, collapse hyphen runs, strip hyphens at
both ends, lowercase. -/
def normalize_datasource_id (display_name : String) : String :=
  let s1 := display_name.toList.filter keepChar
  let s2 := squashWs s1
  let s3 := squashHyphens s2
  let s4 := dropTrail (· == '-') (s3.dropWhile (· == '-'))
  ⟨s4.map asciiLower⟩

/-- No two consecutive hyphens occur in the list. -/
def noDoubleHyphen : List Char → Bool
  | a :: b :: rest => !(a == '-' && b == '-') && noDoubleHyphen (b :: rest)
  | _ => true

/-! ### Email validation (manage.py lines 320–337) -/

/-- A character of the regex class `[a-zA-Z0-9._%+-]` (email local part). -/
def isLocalChar (c : Char) : Bool :=
  isAsciiAlpha c || isAsciiDigit c || c == '.' || c == '_' || c == '%' || c == '+' || c == '-'

/-- A character of the regex class `[a-zA-Z0-9.-]` (email domain part). -/
def isDomChar (c : Char) : Bool := isAsciiAlpha c || isAsciiDigit c || c == '.' || c == '-'

/-- Matcher for the tail `[a-zA-Z0-9.-]+\.[a-zA-Z]{2,}$` after the `@`:
some split at a dot has a nonempty valid domain before it and an
all-alphabetic TLD of length at least 2 reaching the end. -/
def emailDomainTail (rest : List Char) : Bool :=
  (List.range rest.length).any fun j =>
    match rest.drop j with
    | '.' :: tld =>
      !(rest.take j).isEmpty && (rest.take j).all isDomChar &&
        decide (2 ≤ tld.length) && tld.all isAsciiAlpha
    | _ => false

/-- `re.match(r"^[a-zA-Z0-9._%+-]+@[a-zA-Z0-9.-]+\.[a-zA-Z]{2,}$", email)`. -/
def matchEmail (email : String) : Bool :=
  let cs := email.toList
  (List.range cs.length).any fun i =>
    match cs.drop i with
    | '@' :: rest =>
      !(cs.take i).isEmpty && (cs.take i).all isLocalChar && emailDomainTail rest
    | _ => false

/-- Python `s.split(',')`. -/
def splitCommaAux : List Char → List Char → List (List Char)
  | [], acc => [acc.reverse]
  | c :: rest, acc =>
    if c == ',' then acc.reverse :: splitCommaAux rest []
    else splitCommaAux rest (c :: acc)

/-- Python `s.split(',')` on strings. -/
def splitComma (s : String) : List String := (splitCommaAux s.toList []).map (⟨·⟩)

/-! ### Settings and assembled configuration (manage.py lines 267–411) -/

/-- `DatasourceSettings`: the environment-derived configuration input.
Optional textual fields use `""` for "not set" (Python falsiness); the two
boolean fields are modelled as already parsed. -/
structure DatasourceSettings where
  glean_indexing_api_key : String
  glean_instance_name : String
  glean_datasource_display_name : String
  glean_datasource_id : String
  /-- `""` means unset; pydantic then applies the default `KNOWLEDGE_HUB`. -/
  glean_datasource_category : String
  glean_datasource_home_url : String
  glean_datasource_url_regex : String
  glean_datasource_icon_filename_lightmode : String
  glean_datasource_icon_url_lightmode : String
  glean_datasource_icon_filename_darkmode : String
  glean_datasource_icon_url_darkmode : String
  glean_datasource_user_referenced_by_email : Bool
  glean_datasource_is_test_mode : Bool
  glean_datasource_test_user_emails : String
  glean_datasource_suggestion_text : String
deriving Repr, DecidableEq

/-- The 15-member category enumeration (`DatasourceCategory`). -/
def allCategories : List String :=
  ["KNOWLEDGE_HUB", "PUBLISHED_CONTENT", "COLLABORATIVE_CONTENT", "QUESTION_ANSWER",
   "TICKETS", "CODE_REPOSITORY", "CHANGE_MANAGEMENT", "EMAIL", "MESSAGING", "CRM",
   "SSO", "ATS", "PEOPLE", "EXTERNAL_SHORTCUT", "UNCATEGORIZED"]

/-- The `validate_display_name` field validator. -/
def validate_display_name (v : String) : Except String String :=
  if pyStrip v ≠ v then
    .error "Display name cannot have leading or trailing whitespace"
  else if v ≠ "" ∧ v.toList.getLast? ∈ [some '/', some ';', some ':', some ','] then
    .error "Display name cannot end with symbols like /, ;, :, ,"
  else .ok v

/-- Whether `validate_display_name` accepts. -/
def displayNameOkBool (v : String) : Bool :=
  match validate_display_name v with
  | .ok _ => true
  | .error _ => false

/-- Pydantic's field checks for the display name: `max_length=50` together
with the `validate_display_name` validator. -/
def display_name_field_check (v : String) : Except String String :=
  if 50 < v.toList.length then .error "String should have at most 50 characters"
  else validate_display_name v

/-- The `url_regex` property: explicit override, else home URL with trailing
slashes stripped plus `/.*`. -/
def url_regex (s : DatasourceSettings) : String :=
  if s.glean_datasource_url_regex ≠ "" then s.glean_datasource_url_regex
  else pyRstripSlash s.glean_datasource_home_url ++ "/.*"

/-- The `suggestion_text` property: explicit override, else templated from
the display name. -/
def suggestion_text (s : DatasourceSettings) : String :=
  if s.glean_datasource_suggestion_text ≠ "" then s.glean_datasource_suggestion_text
  else "Search for anything in " ++ s.glean_datasource_display_name ++ "..."

/-- The `test_user_emails_list` property, returning the valid addresses kept
and the invalid entries that were logged as warnings and skipped. -/
def test_user_emails_list (s : DatasourceSettings) : List String × List String :=
  if s.glean_datasource_test_user_emails = "" then ([], [])
  else
    let emails := ((splitComma s.glean_datasource_test_user_emails).map pyStrip).filter
      (fun e => e != "")
    (emails.filter matchEmail, emails.filter (fun e => !(matchEmail e)))

/-- The `icon_url` property: explicit file path, else explicit URL, else
the default local file, else an error listing the three options; a
specified-but-missing file is an immediate error naming it. -/
def icon_url (fs : FS) (http : Http) (s : DatasourceSettings) : Except String String :=
  if s.glean_datasource_icon_filename_lightmode ≠ "" then
    match fs s.glean_datasource_icon_filename_lightmode with
    | some _ => get_icon_as_data_url fs s.glean_datasource_icon_filename_lightmode
    | none => .error ("Icon file not found: " ++ s.glean_datasource_icon_filename_lightmode)
  else if s.glean_datasource_icon_url_lightmode ≠ "" then
    download_icon http s.glean_datasource_icon_url_lightmode
  else
    match fs "icon-lightmode.png" with
    | some _ => get_icon_as_data_url fs "icon-lightmode.png"
    | none => .error "No light mode icon found. Please provide one of the following: 1. Place an icon-lightmode.png file in the current directory 2. Set GLEAN_DATASOURCE_ICON_FILENAME_LIGHTMODE to point to your icon file 3. Set GLEAN_DATASOURCE_ICON_URL_LIGHTMODE to an icon URL"

/-- The `icon_dark_url` property: explicit file path, else explicit URL, else
the default local file, else the fully resolved light icon, else an error. -/
def icon_dark_url (fs : FS) (http : Http) (s : DatasourceSettings) : Except String String :=
  if s.glean_datasource_icon_filename_darkmode ≠ "" then
    match fs s.glean_datasource_icon_filename_darkmode with
    | some _ => get_icon_as_data_url fs s.glean_datasource_icon_filename_darkmode
    | none => .error ("Icon file not found: " ++ s.glean_datasource_icon_filename_darkmode)
  else if s.glean_datasource_icon_url_darkmode ≠ "" then
    download_icon http s.glean_datasource_icon_url_darkmode
  else
    match fs "icon-darkmode.png" with
    | some _ => get_icon_as_data_url fs "icon-darkmode.png"
    | none =>
      match icon_url fs http s with
      | .ok v => .ok v
      | .error _ => .error "No dark mode icon found. Please provide one of the following: 1. Place an icon-darkmode.png file in the current directory 2. Set GLEAN_DATASOURCE_ICON_FILENAME_DARKMODE to point to your icon file 3. Set GLEAN_DATASOURCE_ICON_URL_DARKMODE to an icon URL Note: Dark mode icon falls back to light mode icon if not specified."

/-! ### Assembly, synchronization and export (manage.py lines 717–1052) -/

/-- The canonical assembled configuration (spec §3 `DatasourceConfig`,
restricted to the environment-file-backed fields that `create_datasource`
reads from `DatasourceSettings`). -/
structure Config where
  api_key : String
  instance_name : String
  display_name : String
  id : String
  category : String
  home_url : String
  url_regex : String
  suggestion_text : String
  icon_light : String
  icon_dark : String
  user_referenced_by_email : Bool
  is_test_mode : Bool
  test_user_emails : List String
deriving Repr, DecidableEq

/-- `Bool` success test for `Except`. -/
def exceptOk {ε α : Type} : Except ε α → Bool
  | .ok _ => true
  | .error _ => false

instance {ε α : Type} [DecidableEq ε] [DecidableEq α] : DecidableEq (Except ε α) :=
  fun a b =>
    match a, b with
    | .ok x, .ok y =>
      if h : x = y then .isTrue (by rw [h]) else .isFalse (by intro hc; cases hc; exact h rfl)
    | .error x, .error y =>
      if h : x = y then .isTrue (by rw [h]) else .isFalse (by intro hc; cases hc; exact h rfl)
    | .ok _, .error _ => .isFalse (by intro hc; cases hc)
    | .error _, .ok _ => .isFalse (by intro hc; cases hc)

/-- The category pydantic stores: the default `KNOWLEDGE_HUB` when the
environment variable is unset. -/
def effectiveCategory (s : DatasourceSettings) : String :=
  if s.glean_datasource_category = "" then "KNOWLEDGE_HUB"
  else s.glean_datasource_category

/-- Pydantic's field validation of `DatasourceSettings` (patterns, length,
enum membership, the display-name validator). -/
def settingsValid (s : DatasourceSettings) : Bool :=
  decide (s.glean_datasource_display_name.toList.length ≤ 50) &&
  displayNameOkBool s.glean_datasource_display_name &&
  !(s.glean_datasource_id.toList.isEmpty) &&
  s.glean_datasource_id.toList.all isSlugChar &&
  (strStarts "http://" s.glean_datasource_home_url ||
    strStarts "https://" s.glean_datasource_home_url) &&
  (s.glean_datasource_category == "" ||
    allCategories.contains s.glean_datasource_category)

/-- The configuration record built from validated settings and the two
resolved icon data URLs. -/
def mkConfig (s : DatasourceSettings) (l d : String) : Config :=
  { api_key := s.glean_indexing_api_key
    instance_name := s.glean_instance_name
    display_name := s.glean_datasource_display_name
    id := s.glean_datasource_id
    category := effectiveCategory s
    home_url := s.glean_datasource_home_url
    url_regex := url_regex s
    suggestion_text := suggestion_text s
    icon_light := l
    icon_dark := d
    user_referenced_by_email := s.glean_datasource_user_referenced_by_email
    is_test_mode := s.glean_datasource_is_test_mode
    test_user_emails := (test_user_emails_list s).1 }

/-- Assemble the canonical configuration from validated settings: field
validation, then fallback resolution of URL regex, suggestion text, icons
and test e-mails (spec §4.3 `assemble`). -/
def assemble (fs : FS) (http : Http) (s : DatasourceSettings) : Except String Config :=
  if settingsValid s then
    match icon_url fs http s with
    | .error e => .error e
    | .ok l =>
      match icon_dark_url fs http s with
      | .error e => .error e
      | .ok d => .ok (mkConfig s l d)
  else .error "Configuration error - invalid settings"

/-- The remote record sent by `glean.indexing.datasources.add` and returned
by `retrieve_config` (the env-file-relevant fields). -/
structure RemoteRecord where
  name : String
  display_name : String
  datasource_category : String
  url_regex : String
  icon_url : String
  icon_dark_url : String
  home_url : String
  suggestion_text : String
  is_user_referenced_by_email : Bool
  is_test_datasource : Bool
deriving Repr, DecidableEq

/-- `DATASOURCE_CATEGORY_MAP.get(value, KNOWLEDGE_HUB)`: the push-side
category mapping, defaulting unknown values to `KNOWLEDGE_HUB`. -/
def datasourceCategoryMap (v : String) : String :=
  if allCategories.contains v then v else "KNOWLEDGE_HUB"

/-- The payload of the `add` call in `create_datasource` (lines 775–791). -/
def add_payload (c : Config) : RemoteRecord :=
  { name := c.id
    display_name := c.display_name
    datasource_category := datasourceCategoryMap c.category
    url_regex := c.url_regex
    icon_url := c.icon_light
    icon_dark_url := c.icon_dark
    home_url := c.home_url
    suggestion_text := c.suggestion_text
    is_user_referenced_by_email := c.user_referenced_by_email
    is_test_datasource := c.is_test_mode }

/-- Outcome of the synchronizer's push. -/
inductive SyncOutcome where
  | pushed (r : RemoteRecord)
  | aborted
deriving Repr, DecidableEq

/-- The create-or-update decision flow of `create_datasource` (lines
721–733): check existence via `retrieve_config` — where ANY exception is
swallowed and treated as "not found" — then either upsert directly, or, when
a record was found and `force` is not set, ask for confirmation. -/
def create_datasource {ε : Type} (retrieve : Except ε (Option RemoteRecord))
    (confirm force : Bool) (c : Config) : SyncOutcome :=
  match retrieve with
  | .ok (some _) =>
    if force then .pushed (add_payload c)
    else if confirm then .pushed (add_payload c)
    else .aborted
  | .ok none => .pushed (add_payload c)
  | .error _ => .pushed (add_payload c)

/-- The artifacts of `fetch_datasource_config(..., save=True)` restricted to
the environment file and the icon files: the env file re-read as settings
(the API key line is blank/redacted and the test-user-emails line is written
commented out), and the saved icon files (lines 874–1027). -/
def export_config (r : RemoteRecord) (instance_name datasource_id : String) :
    DatasourceSettings × FS :=
  let lightSaved : Option (String × Bytes) :=
    if r.icon_url ≠ "" then (save_data_url_to_file r.icon_url).toOption else none
  let darkSaved : Option (String × Bytes) :=
    if r.icon_dark_url ≠ "" then (save_data_url_to_file r.icon_dark_url).toOption
    else none
  let fs0 : FS := fun _ => none
  let fs1 : FS :=
    match lightSaved with
    | some (ext, bytes) =>
      fun p => if p = "icon-lightmode." ++ ext then some bytes else fs0 p
    | none => fs0
  let fs2 : FS :=
    match darkSaved with
    | some (ext, bytes) =>
      fun p => if p = "icon-darkmode." ++ ext then some bytes else fs1 p
    | none => fs1
  ({ glean_indexing_api_key := ""
     glean_instance_name := instance_name
     glean_datasource_display_name := r.display_name
     glean_datasource_id := datasource_id
     glean_datasource_category :=
       if r.datasource_category = "" then "KNOWLEDGE_HUB" else r.datasource_category
     glean_datasource_home_url := r.home_url
     glean_datasource_url_regex := r.url_regex
     glean_datasource_icon_filename_lightmode :=
       match lightSaved with
       | some (ext, _) => "icon-lightmode." ++ ext
       | none => "icon-lightmode.png"
     glean_datasource_icon_url_lightmode := ""
     glean_datasource_icon_filename_darkmode :=
       match darkSaved with
       | some (ext, _) => "icon-darkmode." ++ ext
       | none => "icon-darkmode.png"
     glean_datasource_icon_url_darkmode := ""
     glean_datasource_user_referenced_by_email := r.is_user_referenced_by_email
     glean_datasource_is_test_mode := r.is_test_datasource
     glean_datasource_test_user_emails := ""
     glean_datasource_suggestion_text := r.suggestion_text }, fs2)

/-- Push an assembled configuration, export the resulting remote record with
`--save`, and re-assemble from the exported files (the spec's
`pull(push(config))` round trip, over the env-file field set). -/
def roundTrip (fs : FS) (http : Http) (s : DatasourceSettings) : Except String Config :=
  match assemble fs http s with
  | .error e => .error e
  | .ok c =>
    match export_config (add_payload c) s.glean_instance_name c.id with
    | (env, files) => assemble files http env

/-! ### Concrete fixtures used as test inputs -/

/-- A representative settings value: default-derived URL regex, icon from an
explicit light-mode file, one invalid test e-mail entry. -/
def baseSettings : DatasourceSettings :=
  { glean_indexing_api_key := "secret-key"
    glean_instance_name := "acme"
    glean_datasource_display_name := "My App"
    glean_datasource_id := "my-app"
    glean_datasource_category := ""
    glean_datasource_home_url := "https://app.example.com/dash"
    glean_datasource_url_regex := ""
    glean_datasource_icon_filename_lightmode := "logo.png"
    glean_datasource_icon_url_lightmode := ""
    glean_datasource_icon_filename_darkmode := ""
    glean_datasource_icon_url_darkmode := ""
    glean_datasource_user_referenced_by_email := true
    glean_datasource_is_test_mode := true
    glean_datasource_test_user_emails := "a@b.com, not-an-email, c@d.co"
    glean_datasource_suggestion_text := "" }

/-- A filesystem holding one small PNG. -/
def exFS : FS := fun p => if p = "logo.png" then some [1, 2, 3] else none

/-- A filesystem with no files. -/
def noFS : FS := fun _ => none

/-- A filesystem holding one empty (zero-byte) PNG. -/
def emptyPngFS : FS := fun p => if p = "empty.png" then some [] else none

/-- An HTTP collaborator where every fetch fails. -/
def exHttp : Http := fun _ => none

/-- An HTTP collaborator always answering with a JPEG body. -/
def jpegHttp : Http := fun _ => some ("image/jpeg", [1, 2, 3])

/-- The configuration `assemble` produces from `baseSettings` over `exFS`. -/
def cEx : Config :=
  { api_key := "secret-key"
    instance_name := "acme"
    display_name := "My App"
    id := "my-app"
    category := "KNOWLEDGE_HUB"
    home_url := "https://app.example.com/dash"
    url_regex := "https://app.example.com/dash/.*"
    suggestion_text := "Search for anything in My App..."
    icon_light := "data:image/png;base64,AQID"
    icon_dark := "data:image/png;base64,AQID"
    user_referenced_by_email := true
    is_test_mode := true
    test_user_emails := ["a@b.com", "c@d.co"] }

/-! ## Supporting lemmas -/

theorem b64inv_tbl : ∀ n, n < 64 → b64inv (b64tbl n) = some n := by decide

theorem b64tbl_ne_eq : ∀ n, n < 64 → b64tbl n ≠ '=' := by decide

theorem b64Chars_ne_nl : ∀ c ∈ b64Chars, c ≠ '\n' := by decide

theorem b64tbl_ne_nl (n : Nat) : b64tbl n ≠ '\n' := by
  unfold b64tbl List.getD
  cases h : b64Chars.get? n with
  | some c =>
    have hc : c ∈ b64Chars := List.get?_mem h
    simpa using b64Chars_ne_nl c hc
  | none => simp

/-- Decoding is a left inverse of encoding on genuine byte lists. -/
theorem b64_decode_encode :
    ∀ l : Bytes, l.all (· < 256) = true → b64DecodeChars (b64EncodeChars l) = some l
  | [], _ => by simp [b64EncodeChars, b64DecodeChars]
  | [a], h => by
    have ha : a < 256 := by simpa using h
    have h1 : a / 4 < 64 := by omega
    have h2 : a % 4 * 16 < 64 := by omega
    simp [b64EncodeChars, b64DecodeChars, b64inv_tbl _ h1, b64inv_tbl _ h2]
    omega
  | [a, b], h => by
    have ha : a < 256 ∧ b < 256 := by simpa using h
    have h1 : a / 4 < 64 := by omega
    have h2 : a % 4 * 16 + b / 16 < 64 := by omega
    have h3 : b % 16 * 4 < 64 := by omega
    have e3 : (b64tbl (b % 16 * 4) == '=') = false := by
      simpa using b64tbl_ne_eq _ h3
    simp [b64EncodeChars, b64DecodeChars, b64inv_tbl _ h1, b64inv_tbl _ h2,
      b64inv_tbl _ h3, e3]
    exact ⟨by omega, by omega⟩
  | a :: b :: c :: rest, h => by
    have hm : a < 256 ∧ b < 256 ∧ c < 256 := by
      simp only [List.all_cons, Bool.and_eq_true, decide_eq_true_eq] at h
      exact ⟨h.1, h.2.1, h.2.2.1⟩
    have hrest : rest.all (· < 256) = true := by
      simp only [List.all_cons, Bool.and_eq_true] at h
      exact h.2.2.2
    obtain ⟨ha, hb, hc⟩ := hm
    have h1 : a / 4 < 64 := by omega
    have h2 : a % 4 * 16 + b / 16 < 64 := by omega
    have h3 : b % 16 * 4 + c / 64 < 64 := by omega
    have h4 : c % 64 < 64 := by omega
    have e3 : (b64tbl (b % 16 * 4 + c / 64) == '=') = false := by
      simpa using b64tbl_ne_eq _ h3
    have e4 : (b64tbl (c % 64) == '=') = false := by
      simpa using b64tbl_ne_eq _ h4
    have ih := b64_decode_encode rest hrest
    simp only [b64EncodeChars, b64DecodeChars, b64inv_tbl _ h1, b64inv_tbl _ h2,
      b64inv_tbl _ h3, b64inv_tbl _ h4, e3, e4, Bool.false_and, Bool.and_false,
      if_false, ih]
    simp
    exact ⟨by omega, by omega, by omega⟩

/-- The encoder never emits a newline. -/
theorem b64Encode_no_nl : ∀ l : Bytes, ∀ c ∈ b64EncodeChars l, c ≠ '\n'
  | [] => by intro c hc; simp [b64EncodeChars] at hc
  | [a] => by
    intro c hc
    simp only [b64EncodeChars, List.mem_cons, List.not_mem_nil, or_false] at hc
    rcases hc with h | h | h | h <;> subst h <;> first | exact b64tbl_ne_nl _ | decide
  | [a, b] => by
    intro c hc
    simp only [b64EncodeChars, List.mem_cons, List.not_mem_nil, or_false] at hc
    rcases hc with h | h | h | h <;> subst h <;> first | exact b64tbl_ne_nl _ | decide
  | a :: b :: c :: rest => by
    intro e he
    simp only [b64EncodeChars, List.mem_cons] at he
    rcases he with h | h | h | h | h
    · subst h; exact b64tbl_ne_nl _
    · subst h; exact b64tbl_ne_nl _
    · subst h; exact b64tbl_ne_nl _
    · subst h; exact b64tbl_ne_nl _
    · exact b64Encode_no_nl rest e h

/-- Encoding a nonempty byte list gives a nonempty character list. -/
theorem b64Encode_ne_nil : ∀ l : Bytes, l ≠ [] → b64EncodeChars l ≠ []
  | [], h => absurd rfl h
  | [a], _ => by simp [b64EncodeChars]
  | [a, b], _ => by simp [b64EncodeChars]
  | a :: b :: c :: rest, _ => by cases rest <;> simp [b64EncodeChars]

/-! ### Lemmas about canonical data URLs -/

theorem takeWhile_of_all {p : Char → Bool} :
    ∀ l : List Char, (∀ c ∈ l, p c = true) → l.takeWhile p = l
  | [], _ => rfl
  | c :: rest, h => by
    have hc : p c = true := h c (List.mem_cons_self c rest)
    simp only [List.takeWhile_cons, hc, if_true]
    rw [takeWhile_of_all rest (fun d hd => h d (List.mem_cons_of_mem c hd))]

theorem takeWhile_append_stop {p : Char → Bool} (l t : List Char) (x : Char)
    (hl : ∀ c ∈ l, p c = true) (hx : p x = false) :
    (l ++ x :: t).takeWhile p = l := by
  induction l with
  | nil => simp [List.takeWhile_cons, hx]
  | cons c rest ih =>
    have hc : p c = true := hl c (List.mem_cons_self c rest)
    simp only [List.cons_append, List.takeWhile_cons, hc, if_true]
    rw [ih (fun d hd => hl d (List.mem_cons_of_mem c hd))]

theorem dropWhile_append_stop {p : Char → Bool} (l t : List Char) (x : Char)
    (hl : ∀ c ∈ l, p c = true) (hx : p x = false) :
    (l ++ x :: t).dropWhile p = x :: t := by
  induction l with
  | nil => simp [List.dropWhile_cons, hx]
  | cons c rest ih =>
    have hc : p c = true := hl c (List.mem_cons_self c rest)
    simp only [List.cons_append, List.dropWhile_cons, hc, if_true]
    exact ih (fun d hd => hl d (List.mem_cons_of_mem c hd))

theorem dropLeads_append (pat rest : List Char) :
    dropLeads pat (pat ++ rest) = some rest := by
  induction pat with
  | nil => rfl
  | cons a as ih => simp [dropLeads, ih]

theorem leadsWith_append (pat rest : List Char) :
    leadsWith pat (pat ++ rest) = true := by
  induction pat with
  | nil => rfl
  | cons a as ih => simp [leadsWith, ih]

/-- Character-level statement: parsing a well-formed data URL over a
semicolon-free, nonempty MIME and a newline-free, nonempty payload recovers
both groups. -/
theorem parseDataUrl_chars (mimeChars enc : List Char)
    (hm : ∀ c ∈ mimeChars, (c != ';') = true) (hmne : mimeChars ≠ [])
    (hnl : ∀ c ∈ enc, (c != '\n') = true) (hne : enc ≠ []) :
    parseDataUrl ⟨"data:".toList ++ mimeChars ++ ";base64,".toList ++ enc⟩ =
      some (⟨mimeChars⟩, ⟨enc⟩) := by
  have hmem : mimeChars.isEmpty = false := by
    cases mimeChars with
    | nil => exact absurd rfl hmne
    | cons c rest => rfl
  have hemem : enc.isEmpty = false := by
    cases enc with
    | nil => exact absurd rfl hne
    | cons c rest => rfl
  have htake := takeWhile_append_stop (p := (· != ';')) mimeChars
    ('b' :: 'a' :: 's' :: 'e' :: '6' :: '4' :: ',' :: enc) ';' hm (by decide)
  have hdrop := dropWhile_append_stop (p := (· != ';')) mimeChars
    ('b' :: 'a' :: 's' :: 'e' :: '6' :: '4' :: ',' :: enc) ';' hm (by decide)
  have henc := takeWhile_of_all (p := (· != '\n')) enc hnl
  unfold parseDataUrl
  simp only [String.toList, List.append_assoc, List.cons_append, List.nil_append]
  simp [dropLeads, htake, hdrop, henc, hmem, hemem]

theorem mkDataUrl_data (mime payload : String) :
    (mkDataUrl mime payload).data =
      "data:".toList ++ mime.data ++ ";base64,".toList ++ payload.data := by
  simp [mkDataUrl, String.data_append, String.toList]

/-- Parsing a canonical icon data URL recovers the MIME type and payload. -/
theorem parseDataUrl_mk (mime : String) (bytes : Bytes)
    (hm : mime = "image/png" ∨ mime = "image/svg+xml") (hb : bytes ≠ []) :
    parseDataUrl (mkDataUrl mime (b64EncodeStr bytes)) =
      some (mime, b64EncodeStr bytes) := by
  have hsemi : ∀ c ∈ mime.data, (c != ';') = true := by
    rcases hm with h | h <;> subst h <;> decide
  have hnl : ∀ c ∈ b64EncodeChars bytes, (c != '\n') = true := by
    intro c hc
    simpa using b64Encode_no_nl bytes c hc
  have hmne : mime.data ≠ [] := by
    rcases hm with h | h <;> subst h <;> decide
  have hne : b64EncodeChars bytes ≠ [] := b64Encode_ne_nil bytes hb
  have hkey := parseDataUrl_chars mime.data (b64EncodeChars bytes) hsemi hmne hnl hne
  have hstr : mkDataUrl mime (b64EncodeStr bytes) =
      ⟨"data:".toList ++ mime.data ++ ";base64,".toList ++ b64EncodeChars bytes⟩ := by
    apply String.ext
    simp [mkDataUrl, String.data_append, String.toList, b64EncodeStr]
  rw [hstr]
  rw [hkey]
  rfl

/-- A canonical data URL starts with `data:`. -/
theorem strStarts_mkDataUrl (mime payload : String) :
    strStarts "data:" (mkDataUrl mime payload) = true := by
  unfold strStarts
  have h : (mkDataUrl mime payload).toList =
      "data:".toList ++ (mime.data ++ (";base64,".toList ++ payload.data)) := by
    show (mkDataUrl mime payload).data = _
    simpa [List.append_assoc] using mkDataUrl_data mime payload
  rw [h]
  exact leadsWith_append _ _

/-- Saving a canonical icon data URL writes back exactly the encoded bytes
and picks the extension matching the MIME type. -/
theorem save_mkDataUrl (mime ext : String) (bytes : Bytes)
    (hm : mime = "image/png" ∨ mime = "image/svg+xml") (hb : bytes ≠ [])
    (h256 : bytes.all (· < 256) = true) (he : extension_map mime = some ext) :
    save_data_url_to_file (mkDataUrl mime (b64EncodeStr bytes)) = .ok (ext, bytes) := by
  have hdec : b64DecodeStr (b64EncodeStr bytes) = some bytes := by
    show b64DecodeChars (b64EncodeStr bytes).data = some bytes
    exact b64_decode_encode bytes h256
  unfold save_data_url_to_file
  rw [strStarts_mkDataUrl]
  simp only [Bool.true_eq_false, if_false]
  rw [parseDataUrl_mk mime bytes hm hb]
  simp [he, hdec]

theorem get_icon_png (fs : FS) (p : String) (bytes : Bytes)
    (hs : strLower (pathSuffix p) = ".png") (hf : fs p = some bytes) :
    get_icon_as_data_url fs p = .ok (mkDataUrl "image/png" (b64EncodeStr bytes)) := by
  unfold get_icon_as_data_url
  rw [hs]
  simp [mime_types, hf]

theorem get_icon_svg (fs : FS) (p : String) (bytes : Bytes)
    (hs : strLower (pathSuffix p) = ".svg") (hf : fs p = some bytes) :
    get_icon_as_data_url fs p = .ok (mkDataUrl "image/svg+xml" (b64EncodeStr bytes)) := by
  unfold get_icon_as_data_url
  rw [hs]
  simp [mime_types, hf]

/-! ### Lemmas for `normalize_datasource_id` -/

theorem mem_squashWs :
    ∀ l : List Char, ∀ c ∈ squashWs l, c = '-' ∨ (c ∈ l ∧ isWsChar c = false)
  | [] => by intro c hc; simp [squashWs] at hc
  | [a] => by
    intro c hc
    by_cases hw : isWsChar a = true
    · simp only [squashWs, hw, if_true, List.mem_singleton] at hc
      exact Or.inl hc
    · simp only [squashWs, hw, Bool.false_eq_true, if_false, List.mem_singleton] at hc
      subst hc
      exact Or.inr ⟨List.mem_singleton_self c, by simpa using hw⟩
  | a :: b :: rest => by
    intro c hc
    simp only [squashWs] at hc
    by_cases hab : (isWsChar a && isWsChar b) = true
    · rw [if_pos hab] at hc
      rcases mem_squashWs (b :: rest) c hc with h | ⟨hm, hw⟩
      · exact Or.inl h
      · exact Or.inr ⟨List.mem_cons_of_mem a hm, hw⟩
    · rw [if_neg hab] at hc
      rcases List.mem_cons.mp hc with h | h
      · by_cases hwa : isWsChar a = true
        · rw [if_pos hwa] at h; exact Or.inl h
        · rw [if_neg hwa] at h
          subst h
          exact Or.inr ⟨List.mem_cons_self c (b :: rest), by simpa using hwa⟩
      · rcases mem_squashWs (b :: rest) c h with h2 | ⟨hm, hw⟩
        · exact Or.inl h2
        · exact Or.inr ⟨List.mem_cons_of_mem a hm, hw⟩

theorem mem_squashHyphens : ∀ l : List Char, ∀ c ∈ squashHyphens l, c ∈ l
  | [] => by intro c hc; simp [squashHyphens] at hc
  | [a] => by intro c hc; simpa [squashHyphens] using hc
  | a :: b :: rest => by
    intro c hc
    simp only [squashHyphens] at hc
    by_cases hab : (a == '-' && b == '-') = true
    · rw [if_pos hab] at hc
      exact List.mem_cons_of_mem a (mem_squashHyphens (b :: rest) c hc)
    · rw [if_neg hab] at hc
      rcases List.mem_cons.mp hc with h | h
      · exact h ▸ List.mem_cons_self a (b :: rest)
      · exact List.mem_cons_of_mem a (mem_squashHyphens (b :: rest) c h)

theorem mem_dropTrail {p : Char → Bool} : ∀ l : List Char, ∀ c ∈ dropTrail p l, c ∈ l
  | [] => by intro c hc; simp [dropTrail] at hc
  | a :: rest => by
    intro c hc
    simp only [dropTrail] at hc
    by_cases hcond : ((dropTrail p rest).isEmpty && p a) = true
    · rw [if_pos hcond] at hc; simp at hc
    · rw [if_neg hcond] at hc
      rcases List.mem_cons.mp hc with h | h
      · exact h ▸ List.mem_cons_self a rest
      · exact List.mem_cons_of_mem a (mem_dropTrail rest c h)

theorem head_dropTrail {p : Char → Bool} (l : List Char) (h : Char)
    (hh : (dropTrail p l).head? = some h) : l.head? = some h := by
  cases l with
  | nil => simp [dropTrail] at hh
  | cons a rest =>
    simp only [dropTrail] at hh
    by_cases hcond : ((dropTrail p rest).isEmpty && p a) = true
    · rw [if_pos hcond] at hh; simp at hh
    · rw [if_neg hcond] at hh
      simp only [List.head?_cons] at hh ⊢
      exact hh

theorem getLast_dropTrail {p : Char → Bool} :
    ∀ l : List Char, ∀ h : Char, (dropTrail p l).getLast? = some h → p h = false
  | [], h => by intro hl; simp [dropTrail] at hl
  | a :: rest, h => by
    intro hl
    simp only [dropTrail] at hl
    by_cases hcond : ((dropTrail p rest).isEmpty && p a) = true
    · rw [if_pos hcond] at hl; simp at hl
    · rw [if_neg hcond] at hl
      cases hr : dropTrail p rest with
      | nil =>
        rw [hr] at hl
        simp only [List.getLast?_singleton, Option.some.injEq] at hl
        subst hl
        rw [hr] at hcond
        simpa using hcond
      | cons d tail =>
        rw [hr, List.getLast?_cons_cons, ← hr] at hl
        exact getLast_dropTrail rest h hl

theorem ndh_cons (a : Char) (l : List Char) (h1 : noDoubleHyphen l = true)
    (h2 : ∀ h, l.head? = some h → (a == '-' && h == '-') = false) :
    noDoubleHyphen (a :: l) = true := by
  cases l with
  | nil => rfl
  | cons b rest =>
    have hb := h2 b rfl
    simp only [noDoubleHyphen, hb, Bool.not_false, Bool.true_and]
    exact h1

theorem ndh_tail (a : Char) (l : List Char) (h : noDoubleHyphen (a :: l) = true) :
    noDoubleHyphen l = true := by
  cases l with
  | nil => rfl
  | cons b rest =>
    simp only [noDoubleHyphen, Bool.and_eq_true] at h
    exact h.2

theorem ndh_head_adj (a : Char) (l : List Char) (x : Char)
    (h : noDoubleHyphen (a :: l) = true) (hx : l.head? = some x) :
    (a == '-' && x == '-') = false := by
  cases l with
  | nil => simp at hx
  | cons b rest =>
    simp only [List.head?_cons, Option.some.injEq] at hx
    subst hx
    simp only [noDoubleHyphen, Bool.and_eq_true, Bool.not_eq_true'] at h
    exact h.1

theorem head_squashHyphens (b : Char) (rest : List Char) (hb : (b == '-') = false) :
    (squashHyphens (b :: rest)).head? = some b := by
  cases rest with
  | nil => rfl
  | cons d tail =>
    simp only [squashHyphens, hb, Bool.false_and, Bool.false_eq_true, if_false,
      List.head?_cons]

theorem ndh_squashHyphens : ∀ l : List Char, noDoubleHyphen (squashHyphens l) = true
  | [] => rfl
  | [a] => rfl
  | a :: b :: rest => by
    by_cases hab : (a == '-' && b == '-') = true
    · simp only [squashHyphens, if_pos hab]
      exact ndh_squashHyphens (b :: rest)
    · simp only [squashHyphens, if_neg hab]
      apply ndh_cons
      · exact ndh_squashHyphens (b :: rest)
      · intro x hx
        by_cases hbb : (b == '-') = true
        · have haa : (a == '-') = false := by
            cases haq : a == '-' with
            | false => rfl
            | true => exact absurd (by simp [haq, hbb]) hab
          simp [haa]
        · have hbf : (b == '-') = false := by simpa using hbb
          rw [head_squashHyphens b rest hbf] at hx
          injection hx with hx
          subst hx
          simpa using hab

theorem ndh_dropWhile {p : Char → Bool} :
    ∀ l : List Char, noDoubleHyphen l = true → noDoubleHyphen (l.dropWhile p) = true
  | [] => fun _ => rfl
  | a :: rest => by
    intro h
    rw [List.dropWhile_cons]
    by_cases hp : p a = true
    · rw [if_pos hp]
      exact ndh_dropWhile rest (ndh_tail a rest h)
    · rw [if_neg hp]
      exact h

theorem ndh_dropTrail {p : Char → Bool} :
    ∀ l : List Char, noDoubleHyphen l = true → noDoubleHyphen (dropTrail p l) = true
  | [] => fun _ => rfl
  | a :: rest => by
    intro h
    simp only [dropTrail]
    by_cases hcond : ((dropTrail p rest).isEmpty && p a) = true
    · rw [if_pos hcond]; rfl
    · rw [if_neg hcond]
      apply ndh_cons
      · exact ndh_dropTrail rest (ndh_tail a rest h)
      · intro x hx
        exact ndh_head_adj a rest x h (head_dropTrail rest x hx)

theorem charOfNat_toNat (n : Nat) (h : n < 55296) : (Char.ofNat n).toNat = n := by
  unfold Char.ofNat
  split
  · rfl
  · rename_i hv
    exact absurd (Or.inl h) hv

theorem asciiLower_slug (c : Char)
    (h : (isAsciiAlpha c || isAsciiDigit c || c == '-') = true) :
    isSlugChar (asciiLower c) = true := by
  unfold asciiLower
  by_cases hu : 65 ≤ c.toNat ∧ c.toNat ≤ 90
  · rw [if_pos hu]
    have hv : (Char.ofNat (c.toNat + 32)).toNat = c.toNat + 32 :=
      charOfNat_toNat _ (by omega)
    simp only [isSlugChar, isAsciiDigit, hv, Bool.or_eq_true, Bool.and_eq_true,
      decide_eq_true_eq]
    exact Or.inl (Or.inl ⟨by omega, by omega⟩)
  · rw [if_neg hu]
    simp only [isSlugChar, isAsciiAlpha, isAsciiDigit, Bool.or_eq_true,
      Bool.and_eq_true, decide_eq_true_eq, beq_iff_eq] at h ⊢
    rcases h with ((h | h) | h) | h
    · exact absurd h hu
    · exact Or.inl (Or.inl h)
    · exact Or.inl (Or.inr h)
    · exact Or.inr h

theorem asciiLower_eq_hyphen (c : Char) (h : asciiLower c = '-') : c = '-' := by
  unfold asciiLower at h
  by_cases hu : 65 ≤ c.toNat ∧ c.toNat ≤ 90
  · rw [if_pos hu] at h
    have hv : (Char.ofNat (c.toNat + 32)).toNat = c.toNat + 32 :=
      charOfNat_toNat _ (by omega)
    rw [h] at hv
    have h45 : ('-').toNat = 45 := rfl
    omega
  · rwa [if_neg hu] at h

theorem ndh_map_asciiLower :
    ∀ l : List Char, noDoubleHyphen l = true →
      noDoubleHyphen (l.map asciiLower) = true
  | [] => fun _ => rfl
  | [a] => fun _ => rfl
  | a :: b :: rest => by
    intro h
    have h1 : (a == '-' && b == '-') = false ∧ noDoubleHyphen (b :: rest) = true := by
      simp only [noDoubleHyphen, Bool.and_eq_true, Bool.not_eq_true'] at h
      exact h
    simp only [List.map_cons, noDoubleHyphen, Bool.and_eq_true, Bool.not_eq_true']
    constructor
    · cases hla : asciiLower a == '-' with
      | false => simp
      | true =>
        cases hlb : asciiLower b == '-' with
        | false => simp
        | true =>
          have ha : a = '-' := asciiLower_eq_hyphen a (by simpa using hla)
          have hb : b = '-' := asciiLower_eq_hyphen b (by simpa using hlb)
          rw [ha, hb] at h1
          simpa using h1.1
    · have := ndh_map_asciiLower (b :: rest) h1.2
      simpa using this

/-- The slug character set survives none of the rewriting stages producing
anything outside lowercase letters, digits and hyphens. -/
theorem mem_normalize_slug (d : String) (c : Char)
    (hc : c ∈ (normalize_datasource_id d).toList) : isSlugChar c = true := by
  unfold normalize_datasource_id at hc
  simp only [String.toList] at hc
  rcases List.mem_map.mp hc with ⟨c0, hc0, hlow⟩
  have hm1 := mem_dropTrail _ c0 hc0
  have hm2 := (List.dropWhile_sublist (l := squashHyphens (squashWs
    (d.toList.filter keepChar))) (· == '-')).subset hm1
  have hm3 := mem_squashHyphens _ c0 hm2
  rcases mem_squashWs _ c0 hm3 with h | ⟨hmem, hws⟩
  · subst h
    rw [← hlow]
    exact asciiLower_slug '-' (by decide)
  · have hkeep : keepChar c0 = true := (List.mem_filter.mp hmem).2
    rw [← hlow]
    apply asciiLower_slug
    simp only [keepChar, Bool.or_eq_true] at hkeep
    rcases hkeep with ((h | h) | h) | h
    · simp [h]
    · simp [h]
    · rw [h] at hws; cases hws
    · simp [h]

theorem filter_all_self {α : Type} (p : α → Bool) :
    ∀ l : List α, (l.filter p).all p = true
  | [] => rfl
  | a :: rest => by
    rw [List.filter_cons]
    by_cases hp : p a = true
    · rw [if_pos hp]
      simp only [List.all_cons, hp, Bool.true_and]
      exact filter_all_self p rest
    · rw [if_neg hp]
      exact filter_all_self p rest

/-! ### Lemmas for the round trip (C1) -/

theorem mkDataUrl_ne_empty (mime payload : String) : mkDataUrl mime payload ≠ "" := by
  intro h
  have h2 := congrArg String.length h
  rw [mkDataUrl] at h2
  rw [String.length_append, String.length_append, String.length_append] at h2
  have e1 : ("data:").length = 5 := rfl
  have e2 : ("" : String).length = 0 := rfl
  omega

theorem url_regex_ne_empty (s : DatasourceSettings) : url_regex s ≠ "" := by
  unfold url_regex
  split
  · rename_i h; exact h
  · intro hc
    have h2 := congrArg String.length hc
    rw [String.length_append] at h2
    have e1 : ("/.*").length = 3 := rfl
    have e2 : ("" : String).length = 0 := rfl
    omega

theorem suggestion_text_ne_empty (s : DatasourceSettings) : suggestion_text s ≠ "" := by
  unfold suggestion_text
  split
  · rename_i h; exact h
  · intro hc
    have h2 := congrArg String.length hc
    rw [String.length_append, String.length_append] at h2
    have e1 : ("Search for anything in ").length = 23 := rfl
    have e2 : ("" : String).length = 0 := rfl
    omega

theorem contains_ne_empty (v : String) (h : allCategories.contains v = true) :
    v ≠ "" := by
  intro hv
  subst hv
  exact absurd h (by decide)

theorem effectiveCategory_mem (s : DatasourceSettings)
    (h : (s.glean_datasource_category == "" ||
      allCategories.contains s.glean_datasource_category) = true) :
    allCategories.contains (effectiveCategory s) = true := by
  unfold effectiveCategory
  by_cases hc : s.glean_datasource_category = ""
  · rw [if_pos hc]; decide
  · rw [if_neg hc]
    have h2 : (s.glean_datasource_category == "") = true ∨
        allCategories.contains s.glean_datasource_category = true := by
      simpa using h
    rcases h2 with h1 | h1
    · exact absurd (by simpa using h1) hc
    · exact h1

theorem categoryMap_mem (v : String) (h : allCategories.contains v = true) :
    datasourceCategoryMap v = v := by
  unfold datasourceCategoryMap
  rw [if_pos h]

/-- Exporting a remote record whose two icons are canonical data URLs writes
the two icon files and an env file whose settings re-read exactly as stated:
credential blank, test-user-emails line commented out (hence empty), every
other field carried over from the record. -/
theorem export_config_canonical (r : RemoteRecord) (inst dsid : String)
    (mimeL mimeD extL extD : String) (bytesL bytesD : Bytes)
    (hmL : mimeL = "image/png" ∨ mimeL = "image/svg+xml")
    (hmD : mimeD = "image/png" ∨ mimeD = "image/svg+xml")
    (hbL : bytesL ≠ []) (hbD : bytesD ≠ [])
    (h256L : bytesL.all (· < 256) = true) (h256D : bytesD.all (· < 256) = true)
    (heL : extension_map mimeL = some extL) (heD : extension_map mimeD = some extD)
    (hrL : r.icon_url = mkDataUrl mimeL (b64EncodeStr bytesL))
    (hrD : r.icon_dark_url = mkDataUrl mimeD (b64EncodeStr bytesD))
    (hcatne : r.datasource_category ≠ "") :
    export_config r inst dsid =
      ({ glean_indexing_api_key := ""
         glean_instance_name := inst
         glean_datasource_display_name := r.display_name
         glean_datasource_id := dsid
         glean_datasource_category := r.datasource_category
         glean_datasource_home_url := r.home_url
         glean_datasource_url_regex := r.url_regex
         glean_datasource_icon_filename_lightmode := "icon-lightmode." ++ extL
         glean_datasource_icon_url_lightmode := ""
         glean_datasource_icon_filename_darkmode := "icon-darkmode." ++ extD
         glean_datasource_icon_url_darkmode := ""
         glean_datasource_user_referenced_by_email := r.is_user_referenced_by_email
         glean_datasource_is_test_mode := r.is_test_datasource
         glean_datasource_test_user_emails := ""
         glean_datasource_suggestion_text := r.suggestion_text },
       fun p =>
         if p = "icon-darkmode." ++ extD then some bytesD
         else if p = "icon-lightmode." ++ extL then some bytesL else none) := by
  unfold export_config
  rw [hrL, hrD]
  rw [if_pos (mkDataUrl_ne_empty _ _), if_pos (mkDataUrl_ne_empty _ _)]
  rw [save_mkDataUrl mimeL extL bytesL hmL hbL h256L heL,
    save_mkDataUrl mimeD extD bytesD hmD hbD h256D heD]
  rw [if_neg hcatne]
  rfl

/-- Re-assembling from the exported artifacts reproduces the configuration:
the exported env settings pass validation again and both icons re-resolve
from the saved files to the identical data URLs; the credential comes back
blank and the test-user e-mail list empty. -/
theorem assemble_exported (inst dn dsid cat home ur sugg : String)
    (bref btest : Bool) (extL extD mimeL mimeD : String) (bytesL bytesD : Bytes)
    (http : Http)
    (hlen : decide (dn.toList.length ≤ 50) = true)
    (hdn : displayNameOkBool dn = true)
    (hidne : (!dsid.toList.isEmpty) = true)
    (hid : dsid.toList.all isSlugChar = true)
    (hhome : (strStarts "http://" home || strStarts "https://" home) = true)
    (hcat : allCategories.contains cat = true)
    (hur : ur ≠ "") (hsugg : sugg ≠ "")
    (hextL : (extL = "png" ∧ mimeL = "image/png") ∨
      (extL = "svg" ∧ mimeL = "image/svg+xml"))
    (hextD : (extD = "png" ∧ mimeD = "image/png") ∨
      (extD = "svg" ∧ mimeD = "image/svg+xml")) :
    assemble
      (fun p =>
        if p = "icon-darkmode." ++ extD then some bytesD
        else if p = "icon-lightmode." ++ extL then some bytesL else none)
      http
      { glean_indexing_api_key := ""
        glean_instance_name := inst
        glean_datasource_display_name := dn
        glean_datasource_id := dsid
        glean_datasource_category := cat
        glean_datasource_home_url := home
        glean_datasource_url_regex := ur
        glean_datasource_icon_filename_lightmode := "icon-lightmode." ++ extL
        glean_datasource_icon_url_lightmode := ""
        glean_datasource_icon_filename_darkmode := "icon-darkmode." ++ extD
        glean_datasource_icon_url_darkmode := ""
        glean_datasource_user_referenced_by_email := bref
        glean_datasource_is_test_mode := btest
        glean_datasource_test_user_emails := ""
        glean_datasource_suggestion_text := sugg } =
      .ok { api_key := ""
            instance_name := inst
            display_name := dn
            id := dsid
            category := cat
            home_url := home
            url_regex := ur
            suggestion_text := sugg
            icon_light := mkDataUrl mimeL (b64EncodeStr bytesL)
            icon_dark := mkDataUrl mimeD (b64EncodeStr bytesD)
            user_referenced_by_email := bref
            is_test_mode := btest
            test_user_emails := [] } := by
  have hcatne : ¬(cat = "") := contains_ne_empty cat hcat
  have s1 : strLower (pathSuffix ("icon-lightmode." ++ "png")) = ".png" := by decide
  have s2 : strLower (pathSuffix ("icon-lightmode." ++ "svg")) = ".svg" := by decide
  have s3 : strLower (pathSuffix ("icon-darkmode." ++ "png")) = ".png" := by decide
  have s4 : strLower (pathSuffix ("icon-darkmode." ++ "svg")) = ".svg" := by decide
  have m1 : mime_types ".png" = some "image/png" := rfl
  have m2 : mime_types ".svg" = some "image/svg+xml" := rfl
  rcases hextL with ⟨hxL, hmLv⟩ | ⟨hxL, hmLv⟩ <;>
    rcases hextD with ⟨hxD, hmDv⟩ | ⟨hxD, hmDv⟩ <;>
    subst hxL <;> subst hmLv <;> subst hxD <;> subst hmDv <;>
    simp only [assemble, settingsValid, icon_url, icon_dark_url,
      get_icon_as_data_url, mkConfig, url_regex, suggestion_text,
      effectiveCategory, test_user_emails_list, hlen, hdn, hidne, hid, hhome,
      hcat, hur, hsugg, hcatne, s1, s2, s3, s4, m1, m2, Bool.or_true,
      Bool.true_and, Bool.and_true, Bool.and_self, ne_eq, not_false_eq_true,
      if_true, if_false, Bool.true_or] <;>
    simp

/-- C10: for every input display name, `normalize_datasource_id` returns a
string of lowercase letters, digits and hyphens only, with no leading or
trailing hyphen and no two consecutive hyphens — so every nonempty result
matches the slug pattern `^[a-z0-9-]+$` required by assembly. -/
theorem normalize_id_well_formed (d : String) :
    (normalize_datasource_id d).toList.all isSlugChar = true ∧
    (normalize_datasource_id d).toList.head? ≠ some '-' ∧
    (normalize_datasource_id d).toList.getLast? ≠ some '-' ∧
    noDoubleHyphen (normalize_datasource_id d).toList = true := by
  have hrepr : (normalize_datasource_id d).toList =
      (dropTrail (· == '-')
        ((squashHyphens (squashWs (d.toList.filter keepChar))).dropWhile
          (· == '-'))).map asciiLower := rfl
  refine ⟨List.all_eq_true.mpr (fun c hc => mem_normalize_slug d c hc), ?_, ?_, ?_⟩
  · rw [hrepr, List.head?_map]
    intro hh
    cases hs : (dropTrail (· == '-')
        ((squashHyphens (squashWs (d.toList.filter keepChar))).dropWhile
          (· == '-'))).head? with
    | none => rw [hs] at hh; simp at hh
    | some h0 =>
      rw [hs] at hh
      simp only [Option.map_some'] at hh
      injection hh with hh0
      have h0h : h0 = '-' := asciiLower_eq_hyphen h0 hh0
      subst h0h
      have hm := head_dropTrail _ '-' hs
      have hnot := List.head?_dropWhile_not (· == '-')
        (squashHyphens (squashWs (d.toList.filter keepChar)))
      rw [hm] at hnot
      simp at hnot
  · rw [hrepr, List.getLast?_map]
    intro hh
    cases hs : (dropTrail (· == '-')
        ((squashHyphens (squashWs (d.toList.filter keepChar))).dropWhile
          (· == '-'))).getLast? with
    | none => rw [hs] at hh; simp at hh
    | some h0 =>
      rw [hs] at hh
      simp only [Option.map_some'] at hh
      injection hh with hh0
      have h0h : h0 = '-' := asciiLower_eq_hyphen h0 hh0
      subst h0h
      have := getLast_dropTrail _ '-' hs
      simp at this
  · rw [hrepr]
    exact ndh_map_asciiLower _ (ndh_dropTrail _ (ndh_dropWhile _
      (ndh_squashHyphens _)))

/-- C8: the comma-separated input `"a@b.com, not-an-email, c@d.co"` resolves
to exactly `["a@b.com", "c@d.co"]` with a warning recorded for the invalid
entry; in general every kept entry passed validation and every warned entry
failed it — invalid entries are dropped, never fatal. -/
theorem test_email_filtering :
    test_user_emails_list baseSettings = (["a@b.com", "c@d.co"], ["not-an-email"]) ∧
    ∀ s : DatasourceSettings,
      (test_user_emails_list s).1.all matchEmail = true ∧
      (test_user_emails_list s).2.all (fun e => !(matchEmail e)) = true := by
  constructor
  · decide
  · intro s
    unfold test_user_emails_list
    by_cases h : s.glean_datasource_test_user_emails = ""
    · rw [if_pos h]
      exact ⟨rfl, rfl⟩
    · rw [if_neg h]
      exact ⟨filter_all_self _ _, filter_all_self _ _⟩

/-- C7: every display name of at most 50 characters, with no leading or
trailing whitespace and whose last character is not one of `/;:,`, is
accepted unchanged; every display name ending in one of `/;:,` is rejected
with a validation error. -/
theorem display_name_validation :
    (∀ d : String, d.toList.length ≤ 50 → pyStrip d = d →
      d.toList.getLast? ∉ [some '/', some ';', some ':', some ','] →
      display_name_field_check d = .ok d) ∧
    (∀ d : String, d.toList.getLast? ∈ [some '/', some ';', some ':', some ','] →
      ∃ msg, display_name_field_check d = .error msg) := by
  constructor
  · intro d hlen hstrip hlast
    unfold display_name_field_check validate_display_name
    rw [if_neg (by omega), if_neg (by simp [hstrip]), if_neg]
    intro hcontra
    exact hlast hcontra.2
  · intro d hlast
    unfold display_name_field_check validate_display_name
    by_cases hlen : 50 < d.toList.length
    · exact ⟨_, by rw [if_pos hlen]⟩
    · rw [if_neg hlen]
      by_cases hstrip : pyStrip d ≠ d
      · exact ⟨_, by rw [if_pos hstrip]⟩
      · rw [if_neg hstrip, if_pos]
        · exact ⟨_, rfl⟩
        · refine ⟨?_, hlast⟩
          intro hd
          subst hd
          simp at hlast

/-- Witness for C7 at concrete inputs. -/
theorem display_name_validation_witness :
    display_name_field_check "Intranet" = .ok "Intranet" ∧
    ∃ msg, display_name_field_check "Docs:" = .error msg :=
  ⟨display_name_validation.1 "Intranet" (by decide) (by decide) (by decide),
   display_name_validation.2 "Docs:" (by decide)⟩

/-- C2 (amended): with `homeUrl = "https://app.example.com/dash"` and no
explicit override, the resolved `urlRegex` is the home URL stripped of
trailing slashes plus `/.*` — that is `"https://app.example.com/dash/.*"`,
keeping the path component. -/
theorem url_regex_default_from_home_url :
    baseSettings.glean_datasource_home_url = "https://app.example.com/dash" ∧
    baseSettings.glean_datasource_url_regex = "" ∧
    url_regex baseSettings = "https://app.example.com/dash/.*" := by decide

/-- C2 counterexample: the resolved default is NOT the scheme+host form
`"https://app.example.com/.*"` that the claim states. -/
theorem url_regex_default_not_host_only :
    url_regex baseSettings ≠ "https://app.example.com/.*" := by decide

/-- C4: if the remote retrieve call raises any error during push's existence
check, the flow swallows it, treats the record as absent, and proceeds to
create (upsert) rather than failing — for every error value of every type. -/
theorem existence_check_error_creates {ε : Type} (e : ε) (confirm force : Bool)
    (c : Config) :
    create_datasource (Except.error e) confirm force c = .pushed (add_payload c) := rfl

/-- C5: with no dark icon file, no dark icon URL and no default dark file,
`icon_dark_url` returns exactly the resolved light icon value. -/
theorem dark_icon_falls_back_to_light (fs : FS) (http : Http)
    (s : DatasourceSettings) (x : String)
    (h1 : s.glean_datasource_icon_filename_darkmode = "")
    (h2 : s.glean_datasource_icon_url_darkmode = "")
    (h3 : fs "icon-darkmode.png" = none)
    (h4 : icon_url fs http s = .ok x) :
    icon_dark_url fs http s = .ok x := by
  unfold icon_dark_url
  rw [h1, h2, h3, h4]
  simp

/-- Witness for C5 at concrete inputs. -/
theorem dark_icon_falls_back_to_light_witness :
    baseSettings.glean_datasource_icon_filename_darkmode = "" ∧
    baseSettings.glean_datasource_icon_url_darkmode = "" ∧
    exFS "icon-darkmode.png" = none ∧
    icon_dark_url exFS exHttp baseSettings = .ok "data:image/png;base64,AQID" :=
  ⟨rfl, rfl, rfl,
    dark_icon_falls_back_to_light exFS exHttp baseSettings _ rfl rfl rfl (by decide)⟩

/-- C6: a specified-but-invalid icon candidate fails the chain at once with
an error naming it (here: a configured file path whose file does not exist),
with no fall-through to the URL or default-file candidates — for both the
light and the dark chain. -/
theorem specified_invalid_icon_fails_fast :
    (∀ (fs : FS) (http : Http) (s : DatasourceSettings),
      s.glean_datasource_icon_filename_lightmode ≠ "" →
      fs s.glean_datasource_icon_filename_lightmode = none →
      icon_url fs http s =
        .error ("Icon file not found: " ++ s.glean_datasource_icon_filename_lightmode)) ∧
    (∀ (fs : FS) (http : Http) (s : DatasourceSettings),
      s.glean_datasource_icon_filename_darkmode ≠ "" →
      fs s.glean_datasource_icon_filename_darkmode = none →
      icon_dark_url fs http s =
        .error ("Icon file not found: " ++ s.glean_datasource_icon_filename_darkmode)) := by
  constructor
  · intro fs http s h1 h2
    unfold icon_url
    rw [if_pos h1, h2]
  · intro fs http s h1 h2
    unfold icon_dark_url
    rw [if_pos h1, h2]

/-- Witness for C6: the file is missing while the URL candidate would
succeed, yet the chain fails naming the file. -/
theorem specified_invalid_icon_fails_fast_witness :
    icon_url noFS jpegHttp
      { baseSettings with
        glean_datasource_icon_filename_lightmode := "missing.png"
        glean_datasource_icon_url_lightmode := "https://cdn.example.com/icon.png" } =
      .error ("Icon file not found: " ++ "missing.png") ∧
    icon_dark_url noFS jpegHttp
      { baseSettings with
        glean_datasource_icon_filename_darkmode := "missing-dark.png" } =
      .error ("Icon file not found: " ++ "missing-dark.png") :=
  ⟨specified_invalid_icon_fails_fast.1 noFS jpegHttp _ (by decide) rfl,
   specified_invalid_icon_fails_fast.2 noFS jpegHttp _ (by decide) rfl⟩

/-- C3 (amended): a file-based icon source whose suffix is neither `.png`
nor `.svg` is a resolution failure; a URL-based source whose fetch succeeds
NEVER fails on MIME grounds — its data URL gets MIME `image/png` or
`image/svg+xml`, chosen from the content type or guessed from the URL and
defaulting to `image/png`. -/
theorem icon_mime_resolution :
    (∀ (fs : FS) (p : String),
      strLower (pathSuffix p) ≠ ".png" → strLower (pathSuffix p) ≠ ".svg" →
      ∃ e, get_icon_as_data_url fs p = .error e) ∧
    (∀ (http : Http) (url contentType : String) (body : Bytes),
      http url = some (contentType, body) →
      ∃ mime, (mime = "image/png" ∨ mime = "image/svg+xml") ∧
        download_icon http url = .ok (mkDataUrl mime (b64EncodeStr body))) := by
  constructor
  · intro fs p h1 h2
    simp only [get_icon_as_data_url, mime_types, if_neg h1, if_neg h2]
    exact ⟨_, rfl⟩
  · intro http url contentType body hf
    simp only [download_icon, hf]
    by_cases c1 : strContains "svg" (strLower contentType) = true
    · rw [if_pos c1]
      exact ⟨"image/svg+xml", Or.inr rfl, rfl⟩
    · rw [if_neg c1]
      by_cases c2 : strContains "png" (strLower contentType) = true
      · rw [if_pos c2]
        exact ⟨"image/png", Or.inl rfl, rfl⟩
      · rw [if_neg c2]
        by_cases c3 : strEnds ".svg" (strLower url) = true
        · rw [if_pos c3]
          exact ⟨"image/svg+xml", Or.inr rfl, rfl⟩
        · rw [if_neg c3]
          exact ⟨"image/png", Or.inl rfl, rfl⟩

/-- Witness for C3 at concrete inputs. -/
theorem icon_mime_resolution_witness :
    (∃ e, get_icon_as_data_url exFS "photo.jpeg" = .error e) ∧
    (∃ mime, (mime = "image/png" ∨ mime = "image/svg+xml") ∧
      download_icon jpegHttp "https://cdn.example.com/icon.jpg" =
        .ok (mkDataUrl mime (b64EncodeStr [1, 2, 3]))) :=
  ⟨icon_mime_resolution.1 exFS "photo.jpeg" (by decide) (by decide),
   icon_mime_resolution.2 jpegHttp "https://cdn.example.com/icon.jpg"
     "image/jpeg" [1, 2, 3] rfl⟩

/-- C3 counterexample: a URL source served as `image/jpeg` from a `.jpg`
URL resolves successfully to a `image/png`-typed data URL — a defaulted MIME
type, not the resolution failure the claim demands. -/
theorem download_icon_defaulted_mime_counterexample :
    download_icon jpegHttp "https://cdn.example.com/icon.jpg" =
      .ok "data:image/png;base64,AQID" ∧
    ∀ e : String,
      download_icon jpegHttp "https://cdn.example.com/icon.jpg" ≠ .error e := by
  have h : download_icon jpegHttp "https://cdn.example.com/icon.jpg" =
      .ok "data:image/png;base64,AQID" := by decide
  refine ⟨h, ?_⟩
  intro e hcontra
  rw [h] at hcontra
  cases hcontra

/-- C9 (amended): any nonempty file with a `.png` or `.svg` suffix survives
the encode/decode round trip: `get_icon_as_data_url` then
`save_data_url_to_file` writes back exactly the original bytes with the
matching extension. -/
theorem icon_data_url_round_trip (fs : FS) (p : String) (bytes : Bytes)
    (hf : fs p = some bytes) (hne : bytes ≠ [])
    (h256 : bytes.all (· < 256) = true)
    (hs : strLower (pathSuffix p) = ".png" ∨ strLower (pathSuffix p) = ".svg") :
    ∃ u ext, get_icon_as_data_url fs p = .ok u ∧
      save_data_url_to_file u = .ok (ext, bytes) ∧
      ((strLower (pathSuffix p) = ".png" ∧ ext = "png") ∨
       (strLower (pathSuffix p) = ".svg" ∧ ext = "svg")) := by
  rcases hs with h | h
  · exact ⟨_, "png", get_icon_png fs p bytes h hf,
      save_mkDataUrl "image/png" "png" bytes (Or.inl rfl) hne h256 rfl,
      Or.inl ⟨h, rfl⟩⟩
  · exact ⟨_, "svg", get_icon_svg fs p bytes h hf,
      save_mkDataUrl "image/svg+xml" "svg" bytes (Or.inr rfl) hne h256 rfl,
      Or.inr ⟨h, rfl⟩⟩

/-- Witness for C9 at concrete inputs. -/
theorem icon_data_url_round_trip_witness :
    ∃ u ext, get_icon_as_data_url exFS "logo.png" = .ok u ∧
      save_data_url_to_file u = .ok (ext, [1, 2, 3]) ∧
      ((strLower (pathSuffix "logo.png") = ".png" ∧ ext = "png") ∨
       (strLower (pathSuffix "logo.png") = ".svg" ∧ ext = "svg")) :=
  icon_data_url_round_trip exFS "logo.png" [1, 2, 3] (by decide) (by decide)
    (by decide) (Or.inl (by decide))

/-- C9 counterexample: an existing but empty `.png` file encodes to a data
URL with an empty payload, which `save_data_url_to_file` rejects (`(.+)`
demands a nonempty base64 group), so nothing is written back. -/
theorem icon_round_trip_fails_on_empty_file :
    get_icon_as_data_url emptyPngFS "empty.png" = .ok "data:image/png;base64," ∧
    save_data_url_to_file "data:image/png;base64," =
      .error "Invalid data URL format" := by
  constructor
  · decide
  · decide

/-- C1 (amended): for every configuration that assembles (and hence pushes)
successfully, with both resolved icons canonical data URLs over nonempty
byte payloads, exporting the pushed remote record with `--save` and
re-assembling from the exported files yields the same configuration in every
field EXCEPT the credential (always blank in the exported env file) and the
test-user e-mail list (always empty: the remote record does not carry it and
the exported env file writes that line commented out). -/
theorem round_trip_env_fields (fs : FS) (http : Http) (s : DatasourceSettings)
    (c : Config) (mimeL mimeD : String) (bytesL bytesD : Bytes)
    (hA : assemble fs http s = .ok c)
    (hmL : mimeL = "image/png" ∨ mimeL = "image/svg+xml")
    (hmD : mimeD = "image/png" ∨ mimeD = "image/svg+xml")
    (hbL : bytesL ≠ []) (hbD : bytesD ≠ [])
    (h256L : bytesL.all (· < 256) = true) (h256D : bytesD.all (· < 256) = true)
    (hL : c.icon_light = mkDataUrl mimeL (b64EncodeStr bytesL))
    (hD : c.icon_dark = mkDataUrl mimeD (b64EncodeStr bytesD)) :
    roundTrip fs http s = .ok { c with api_key := "", test_user_emails := [] } := by
  have hA0 := hA
  unfold assemble at hA
  by_cases hv : settingsValid s = true
  case neg =>
    rw [if_neg hv] at hA
    exact Except.noConfusion hA
  rw [if_pos hv] at hA
  cases hu : icon_url fs http s with
  | error e =>
    rw [hu] at hA
    exact Except.noConfusion (show Except.error e = Except.ok c from hA)
  | ok l =>
  rw [hu] at hA
  cases hd : icon_dark_url fs http s with
  | error e =>
    rw [hd] at hA
    exact Except.noConfusion (show Except.error e = Except.ok c from hA)
  | ok dk =>
  rw [hd] at hA
  have hA2 : Except.ok (mkConfig s l dk) = Except.ok c := hA
  injection hA2 with hA1
  subst hA1
  have hLl : l = mkDataUrl mimeL (b64EncodeStr bytesL) := hL
  have hDd : dk = mkDataUrl mimeD (b64EncodeStr bytesD) := hD
  subst hLl
  subst hDd
  have hv2 := hv
  simp only [settingsValid, Bool.and_eq_true] at hv2
  obtain ⟨⟨⟨⟨⟨hlen, hdn⟩, hidne⟩, hid⟩, hhome⟩, hcat⟩ := hv2
  have hcatm : allCategories.contains (effectiveCategory s) = true :=
    effectiveCategory_mem s hcat
  have hEL : ∃ extL, extension_map mimeL = some extL ∧
      ((extL = "png" ∧ mimeL = "image/png") ∨
       (extL = "svg" ∧ mimeL = "image/svg+xml")) := by
    rcases hmL with h | h <;> subst h
    · exact ⟨"png", rfl, Or.inl ⟨rfl, rfl⟩⟩
    · exact ⟨"svg", rfl, Or.inr ⟨rfl, rfl⟩⟩
  have hED : ∃ extD, extension_map mimeD = some extD ∧
      ((extD = "png" ∧ mimeD = "image/png") ∨
       (extD = "svg" ∧ mimeD = "image/svg+xml")) := by
    rcases hmD with h | h <;> subst h
    · exact ⟨"png", rfl, Or.inl ⟨rfl, rfl⟩⟩
    · exact ⟨"svg", rfl, Or.inr ⟨rfl, rfl⟩⟩
  obtain ⟨extL, heL, hxL⟩ := hEL
  obtain ⟨extD, heD, hxD⟩ := hED
  have hr : add_payload (mkConfig s (mkDataUrl mimeL (b64EncodeStr bytesL))
        (mkDataUrl mimeD (b64EncodeStr bytesD))) =
      { name := s.glean_datasource_id
        display_name := s.glean_datasource_display_name
        datasource_category := effectiveCategory s
        url_regex := url_regex s
        icon_url := mkDataUrl mimeL (b64EncodeStr bytesL)
        icon_dark_url := mkDataUrl mimeD (b64EncodeStr bytesD)
        home_url := s.glean_datasource_home_url
        suggestion_text := suggestion_text s
        is_user_referenced_by_email := s.glean_datasource_user_referenced_by_email
        is_test_datasource := s.glean_datasource_is_test_mode } := by
    simp only [add_payload, mkConfig]
    rw [categoryMap_mem _ hcatm]
  simp only [roundTrip, hA0, hr,
    show (mkConfig s (mkDataUrl mimeL (b64EncodeStr bytesL))
      (mkDataUrl mimeD (b64EncodeStr bytesD))).id = s.glean_datasource_id from rfl]
  rw [export_config_canonical
    { name := s.glean_datasource_id
      display_name := s.glean_datasource_display_name
      datasource_category := effectiveCategory s
      url_regex := url_regex s
      icon_url := mkDataUrl mimeL (b64EncodeStr bytesL)
      icon_dark_url := mkDataUrl mimeD (b64EncodeStr bytesD)
      home_url := s.glean_datasource_home_url
      suggestion_text := suggestion_text s
      is_user_referenced_by_email := s.glean_datasource_user_referenced_by_email
      is_test_datasource := s.glean_datasource_is_test_mode }
    s.glean_instance_name s.glean_datasource_id mimeL mimeD extL extD bytesL bytesD
    hmL hmD hbL hbD h256L h256D heL heD rfl rfl
    (contains_ne_empty _ hcatm)]
  exact assemble_exported s.glean_instance_name s.glean_datasource_display_name
    s.glean_datasource_id (effectiveCategory s) s.glean_datasource_home_url
    (url_regex s) (suggestion_text s) s.glean_datasource_user_referenced_by_email
    s.glean_datasource_is_test_mode extL extD mimeL mimeD bytesL bytesD http
    hlen hdn hidne hid hhome hcatm (url_regex_ne_empty s)
    (suggestion_text_ne_empty s) hxL hxD

/-- Witness for C1 at concrete inputs. -/
theorem round_trip_env_fields_witness :
    roundTrip exFS exHttp baseSettings =
      .ok { cEx with api_key := "", test_user_emails := [] } :=
  round_trip_env_fields exFS exHttp baseSettings cEx "image/png" "image/png"
    [1, 2, 3] [1, 2, 3] (by decide) (Or.inl rfl) (Or.inl rfl) (by decide)
    (by decide) (by decide) (by decide) (by decide) (by decide)

/-- C1 counterexample: a configuration with a nonempty test-user e-mail list
pushes successfully, but the round trip loses the list (the exported env
file comments the line out), so the re-assembled configuration is NOT equal
to the original in every field except the credential. -/
theorem round_trip_drops_test_emails :
    assemble exFS exHttp baseSettings = .ok cEx ∧
    cEx.test_user_emails = ["a@b.com", "c@d.co"] ∧
    roundTrip exFS exHttp baseSettings =
      .ok { cEx with api_key := "", test_user_emails := [] } ∧
    roundTrip exFS exHttp baseSettings ≠ .ok { cEx with api_key := "" } := by
  refine ⟨by decide, by decide, by decide, by decide⟩

end GleanDS
